import Mathlib

/-
Verification of the rag-chatbot ingestion-and-retrieval pipeline.

The development shallowly embeds the core of the pipeline:
  * src/document_processor.py : BaseDocumentProcessor.chunk_text
  * src/embeddings.py         : EmbeddingGenerator (generate_embeddings,
                                batch_generate_embeddings, compute_similarity)
  * src/vector_store.py       : VectorStore (add_document, search,
                                document_exists, delete_document,
                                get_collection_stats)

Modelling conventions:
  * tiktoken is external; a text is represented by the token list that
    tiktoken.encode produces for the stripped text, and decode is modelled
    as the identity on token windows (no claim depends on decoded strings).
  * Python floats are modelled as rationals inside the vector store (so
    that everything there is decidable) and as real numbers in
    compute_similarity (which needs square roots).
  * Python exceptions are modelled with Except / explicit fault arguments;
    the exact Python message strings are kept.
  * The ChromaDB engine is opaque; it is modelled as an in-memory record
    list with a fault parameter on each engine call: fault = none is the
    reliable engine, fault = some msg is an engine call raising msg.
-/

namespace RagChatbot

/-- Python builtin range(0, stop, step) for a natural stop index.
A zero step raises ValueError; a positive step yields the multiples of
step below stop; a negative step yields nothing since stop is a natural
number and the walk goes downward from 0. -/
def pyRange (stop : Nat) (step : Int) : Except String (List Nat) :=
  if step = 0 then .error "range() arg 3 must not be zero"
  else if 0 < step then
    .ok ((List.range ((stop + step.toNat - 1) / step.toNat)).map (· * step.toNat))
  else .ok []

/-- Python slice l[start:stop] with negative-index wrap-around. -/
def pySlice {α : Type} (l : List α) (start stop : Int) : List α :=
  let n : Int := l.length
  let s : Int := if start < 0 then max (n + start) 0 else min start n
  let e : Int := if stop < 0 then max (n + stop) 0 else min stop n
  (l.drop s.toNat).take (e - s).toNat

/-- Tokens produced by the (external, fixed) tiktoken encoding. -/
abbrev Token := Nat

/-- A text, represented by its token sequence under the fixed encoding. -/
abbrev Text := List Token

/-- Base document metadata assembled before chunking; Python passes a dict,
whose optional entries are read back with .get and a default. -/
structure BaseMeta where
  file_hash : Option String
  file_name : Option String
  file_type : Option String
  page_number : Option Nat
  deriving DecidableEq

/-- Per-chunk metadata written by chunk_text: a copy of the base metadata
updated with the chunk bookkeeping fields. These five fields are always
set by the chunker. -/
structure ChunkMeta where
  base : BaseMeta
  chunk_index : Nat
  chunk_start_token : Nat
  chunk_end_token : Int
  chunk_token_count : Nat
  total_chunks : Nat
  deriving DecidableEq

/-- DocumentChunk dataclass of document_processor.py. -/
structure DocumentChunk where
  text : Text
  metadata : ChunkMeta
  chunk_id : String
  deriving DecidableEq

/-- ProcessedDocument dataclass of document_processor.py. -/
structure ProcessedDocument where
  file_path : String
  file_hash : String
  chunks : List DocumentChunk
  metadata : BaseMeta
  total_chunks : Nat
  total_tokens : Nat
  deriving DecidableEq

/-- BaseDocumentProcessor.chunk_text. The input is the token list of the
stripped text (empty list = empty or whitespace-only text). Window starts
come from range(0, len(tokens), chunk_size - chunk_overlap); each window
is tokens[start : min(start + chunk_size, len(tokens))]. -/
def chunk_text (chunk_size chunk_overlap : Int) (metadata : BaseMeta)
    (tokens : Text) : Except String (List DocumentChunk) :=
  if tokens.isEmpty then .ok []
  else
    match pyRange tokens.length (chunk_size - chunk_overlap) with
    | .error e => .error e
    | .ok chunk_starts =>
      .ok <| chunk_starts.enum.map fun p =>
        let i : Nat := p.1
        let start : Nat := p.2
        let stop : Int := min ((start : Int) + chunk_size) (tokens.length : Int)
        let chunk_tokens := pySlice tokens (start : Int) stop
        { text := chunk_tokens
          metadata :=
            { base := metadata
              chunk_index := i
              chunk_start_token := start
              chunk_end_token := stop
              chunk_token_count := chunk_tokens.length
              total_chunks := chunk_starts.length }
          chunk_id := metadata.file_hash.getD "unknown" ++ "_" ++ toString i }

/-- Sample base metadata used by concrete witnesses and counterexamples. -/
def exampleMeta : BaseMeta :=
  { file_hash := some "h", file_name := some "f.txt",
    file_type := some "text", page_number := none }

/-- C2 (amended): on a nonempty token list with 0 < overlap < chunk_size,
chunk_text produces exactly ceil(n / (chunk_size - overlap)) chunks, written
with natural division as (n + s - 1) / s for stride s — one chunk per window
start, the starts being the multiples of the stride below the token count.
Consequently there is exactly one chunk precisely when n ≤ chunk_size -
overlap (not when n ≤ chunk_size, as the specification stated). -/
theorem chunk_count_amended (chunk_size chunk_overlap : Int) (metadata : BaseMeta)
    (tokens : Text) (_ho : 0 < chunk_overlap) (hco : chunk_overlap < chunk_size)
    (hne : tokens ≠ []) :
    ∃ chunks, chunk_text chunk_size chunk_overlap metadata tokens = .ok chunks ∧
      chunks.length =
        (tokens.length + (chunk_size - chunk_overlap).toNat - 1) /
          (chunk_size - chunk_overlap).toNat ∧
      (tokens.length ≤ (chunk_size - chunk_overlap).toNat → chunks.length = 1) := by
  have hstep : (0 : Int) < chunk_size - chunk_overlap := by omega
  have hstep0 : chunk_size - chunk_overlap ≠ 0 := by omega
  have hs1 : 1 ≤ (chunk_size - chunk_overlap).toNat := by omega
  have hn1 : 1 ≤ tokens.length := by
    cases tokens with
    | nil => exact absurd rfl hne
    | cons a l => simp
  unfold chunk_text pyRange
  rw [if_neg (by simpa [List.isEmpty_iff] using hne), if_neg hstep0, if_pos hstep]
  refine ⟨_, rfl, by simp, ?_⟩
  intro hle
  simp only [List.length_map, List.enum_length, List.length_range]
  exact Nat.div_eq_of_lt_le (by omega) (by omega)

/-- C2 witness: two tokens with chunk_size 4 and overlap 1 (stride 3) give
a single chunk, matching the amended count formula. -/
theorem chunk_count_amended_witness :
    ∃ chunks, chunk_text 4 1 exampleMeta [0, 1] = .ok chunks ∧
      chunks.length =
        (([0, 1] : Text).length + ((4 : Int) - 1).toNat - 1) / ((4 : Int) - 1).toNat ∧
      (([0, 1] : Text).length ≤ ((4 : Int) - 1).toNat → chunks.length = 1) :=
  chunk_count_amended 4 1 exampleMeta [0, 1] (by norm_num) (by norm_num) (by decide)

/-- C2 counterexample: four tokens with chunk_size 4 and overlap 1 satisfy
0 < overlap < chunk_size and 0 < n ≤ chunk_size, so the claimed count is
ceil((4-1)/(4-1)) = 1 chunk, yet chunk_text produces 2 chunks (window
starts 0 and 3). -/
theorem chunk_count_claim_counterexample :
    (chunk_text 4 1 exampleMeta [0, 1, 2, 3]).map List.length = .ok 2 ∧ 2 ≠ 1 :=
  ⟨rfl, by decide⟩

/-- C3 (amended): chunk_text performs no parameter validation. When
overlap exceeds chunk_size it silently returns zero chunks (the stride is
negative, so range yields no window starts); when overlap equals
chunk_size it fails with the untyped ValueError raised by range; and its
only possible failure, for any parameters, is that range ValueError — no
typed InvalidInputError exists anywhere in the chunker. -/
theorem chunk_no_validation (chunk_size chunk_overlap : Int) (metadata : BaseMeta)
    (tokens : Text) :
    (chunk_size < chunk_overlap →
      chunk_text chunk_size chunk_overlap metadata tokens = .ok []) ∧
    (chunk_size = chunk_overlap → tokens ≠ [] →
      chunk_text chunk_size chunk_overlap metadata tokens =
        .error "range() arg 3 must not be zero") ∧
    (∀ e, chunk_text chunk_size chunk_overlap metadata tokens = .error e →
      e = "range() arg 3 must not be zero") := by
  refine ⟨?_, ?_, ?_⟩
  · intro hlt
    have hstep0 : chunk_size - chunk_overlap ≠ 0 := by omega
    have hstep : ¬ (0 : Int) < chunk_size - chunk_overlap := by omega
    unfold chunk_text pyRange
    by_cases hemp : tokens.isEmpty
    · rw [if_pos hemp]
    · rw [if_neg hemp, if_neg hstep0, if_neg hstep]; rfl
  · intro heq hne
    have hstep0 : chunk_size - chunk_overlap = 0 := by omega
    unfold chunk_text pyRange
    rw [if_neg (by simpa [List.isEmpty_iff] using hne), if_pos hstep0]
  · intro e he
    unfold chunk_text pyRange at he
    by_cases hemp : tokens.isEmpty
    · rw [if_pos hemp] at he; exact absurd he (by simp)
    · rw [if_neg hemp] at he
      by_cases hstep0 : chunk_size - chunk_overlap = 0
      · rw [if_pos hstep0] at he
        simpa using he.symm
      · rw [if_neg hstep0] at he
        by_cases hstep : (0 : Int) < chunk_size - chunk_overlap
        · rw [if_pos hstep] at he; exact absurd he (by simp)
        · rw [if_neg hstep] at he; exact absurd he (by simp)

/-- C3 witness: overlap 3 > chunk_size 2 silently yields zero chunks, and
overlap 2 = chunk_size 2 raises the untyped range ValueError. -/
theorem chunk_no_validation_witness :
    chunk_text 2 3 exampleMeta [0] = .ok [] ∧
    chunk_text 2 2 exampleMeta [0] = .error "range() arg 3 must not be zero" :=
  ⟨(chunk_no_validation 2 3 exampleMeta [0]).1 (by norm_num),
   (chunk_no_validation 2 2 exampleMeta [0]).2.1 rfl (by decide)⟩

/-- C3 counterexample: with overlap 3 and chunk_size 2 the claimed
InvalidInputError never appears — chunk_text returns successfully (with an
empty chunk list) instead of failing. -/
theorem chunk_validation_claim_counterexample :
    chunk_text 2 3 exampleMeta [0] = .ok [] := rfl

/-! ## Embedding generator (src/embeddings.py) -/

/-- Embedding vectors: Python float lists modelled as rational lists. -/
abbrev Vec := List ℚ

/-- External embedding backends. The Ollama primary embeds one text per
request (OllamaClient.generate_embeddings loops over the texts and any
request may raise, modelled by Option); the Sentence-Transformers fallback
is locally resident and embeds each text (assumed available, per its
interface contract). -/
structure EmbEnv where
  primaryOne : Text → Option Vec
  fallbackOne : Text → Vec

/-- Which backend served a generate_embeddings call (noCall when the call
returned early on an empty input list). -/
inductive Origin where
  | primary
  | fallback
  | noCall
  deriving DecidableEq

/-- EmbeddingGenerator.generate_embeddings. The state is the use_ollama
flag; on any primary failure the generator flips use_ollama to False and
re-issues the same batch against the fallback (the recursive call in the
except branch). Returns the vectors, the new state, and the serving
backend. -/
def generate_embeddings (env : EmbEnv) (use_ollama : Bool) (texts : List Text) :
    List Vec × Bool × Origin :=
  if texts.isEmpty then ([], use_ollama, .noCall)
  else if use_ollama then
    match texts.mapM env.primaryOne with
    | some embs => (embs, true, .primary)
    | none => (texts.map env.fallbackOne, false, .fallback)
  else (texts.map env.fallbackOne, false, .fallback)

/-- A sequence of generate_embeddings calls against one generator
instance, threading the use_ollama state; returns the final state and,
per call, the vectors and serving backend. -/
def runCalls (env : EmbEnv) : Bool → List (List Text) → Bool × List (List Vec × Origin)
  | st, [] => (st, [])
  | st, b :: bs =>
    let r := generate_embeddings env st b
    let rest := runCalls env r.2.1 bs
    (rest.1, (r.1, r.2.2) :: rest.2)

/-- Loop body of batch_generate_embeddings: for i in
range(0, len(texts), batch_size) take the slice texts[i : i + batch_size],
embed it, and extend the accumulated results. Expressed as recursion on
the remaining texts (the head slice, then the walk on the dropped rest),
which performs the identical slice sequence for any positive batch_size;
the fuel argument (instantiated with the list length, which the walk
never exhausts) only makes the recursion structural. -/
def goBatch (env : EmbEnv) (batch_size : Nat) : Nat → List Text → Bool → List Vec × Bool
  | _, [], st => ([], st)
  | 0, _ :: _, st => ([], st)
  | fuel + 1, t :: ts, st =>
    let batch := t :: ts.take (batch_size - 1)
    let r := generate_embeddings env st batch
    let rest := goBatch env batch_size fuel (ts.drop (batch_size - 1)) r.2.1
    (r.1 ++ rest.1, rest.2)

/-- EmbeddingGenerator.batch_generate_embeddings: partition the texts into
contiguous slices of batch_size via range(0, len(texts), batch_size) and
concatenate the per-slice generate_embeddings results. A zero batch_size
raises the range ValueError. -/
def batch_generate_embeddings (env : EmbEnv) (st : Bool) (texts : List Text)
    (batch_size : Nat) : Except String (List Vec × Bool) :=
  if batch_size = 0 then .error "range() arg 3 must not be zero"
  else .ok (goBatch env batch_size texts.length texts st)

/-- A nonempty batch on which some primary request raises is served by
the fallback and demotes the generator. -/
theorem generate_embeddings_fail (env : EmbEnv) (texts : List Text)
    (hne : texts ≠ []) (hfail : texts.mapM env.primaryOne = none) :
    generate_embeddings env true texts =
      (texts.map env.fallbackOne, false, .fallback) := by
  unfold generate_embeddings
  rw [if_neg (by simpa [List.isEmpty_iff] using hne), if_pos rfl, hfail]

/-- A demoted generator serves any nonempty batch via the fallback. -/
theorem generate_embeddings_demoted (env : EmbEnv) (texts : List Text)
    (hne : texts ≠ []) :
    generate_embeddings env false texts =
      (texts.map env.fallbackOne, false, .fallback) := by
  unfold generate_embeddings
  rw [if_neg (by simpa [List.isEmpty_iff] using hne), if_neg (by simp)]

/-- When every text of a list embeds successfully on the primary, mapM
over the primary returns exactly the list of unwrapped vectors. -/
theorem mapM_primary_of_isSome (f : Text → Option Vec) :
    ∀ l : List Text, (∀ t ∈ l, (f t).isSome) →
      l.mapM f = some (l.map fun t => (f t).getD []) := by
  intro l hl
  induction l with
  | nil => rfl
  | cons t ts ih =>
    obtain ⟨v, hv⟩ := Option.isSome_iff_exists.mp (hl t (by simp))
    have hts := ih fun x hx => hl x (by simp [hx])
    rw [List.mapM_cons, hv, hts]
    simp [hv]

/-- A batch on which every primary request succeeds is served by the
primary and keeps the generator on the primary. -/
theorem generate_embeddings_primary (env : EmbEnv) (texts : List Text)
    (hne : texts ≠ []) (hall : ∀ t ∈ texts, (env.primaryOne t).isSome) :
    generate_embeddings env true texts =
      (texts.map fun t => (env.primaryOne t).getD [], true, .primary) := by
  unfold generate_embeddings
  rw [if_neg (by simpa [List.isEmpty_iff] using hne), if_pos rfl,
    mapM_primary_of_isSome env.primaryOne texts hall]

/-- Once the generator has demoted itself (use_ollama = False), every
call is served by the fallback and the state stays demoted. -/
theorem runCalls_demoted (env : EmbEnv) (bs : List (List Text)) :
    (runCalls env false bs).1 = false ∧
    ∀ o ∈ (runCalls env false bs).2, o.2 ≠ Origin.primary := by
  induction bs with
  | nil => simp [runCalls]
  | cons b bs ih =>
    by_cases hb : b.isEmpty
    · refine ⟨?_, ?_⟩
      · simp only [runCalls, generate_embeddings, if_pos hb]
        exact ih.1
      · intro o ho
        simp only [runCalls, generate_embeddings, if_pos hb, List.mem_cons] at ho
        rcases ho with h | h
        · subst h; simp
        · exact ih.2 o h
    · have hgen := generate_embeddings_demoted env b (by simpa [List.isEmpty_iff] using hb)
      refine ⟨?_, ?_⟩
      · simp only [runCalls, hgen]
        exact ih.1
      · intro o ho
        simp only [runCalls, hgen, List.mem_cons] at ho
        rcases ho with h | h
        · subst h; simp
        · exact ih.2 o h

/-- Splitting a call sequence: the calls after a prefix run from the state
the prefix left behind. -/
theorem runCalls_append (env : EmbEnv) (st : Bool) (l1 l2 : List (List Text)) :
    runCalls env st (l1 ++ l2) =
      ((runCalls env (runCalls env st l1).1 l2).1,
        (runCalls env st l1).2 ++ (runCalls env (runCalls env st l1).1 l2).2) := by
  induction l1 generalizing st with
  | nil => simp [runCalls]
  | cons b bs ih => simp [runCalls, ih]

/-- C4: the latched fallback. If a sequence of calls leaves the generator
on the primary backend and the next call has a nonempty batch on which
the primary raises, that very call is served by the fallback on the same
batch, the generator demotes itself, and no later call is ever served by
the primary again. -/
theorem fallback_latch (env : EmbEnv) (pre : List (List Text)) (b : List Text)
    (post : List (List Text)) (hb : b ≠ [])
    (hfail : b.mapM env.primaryOne = none)
    (hpre : (runCalls env true pre).1 = true) :
    (runCalls env true (pre ++ b :: post)).1 = false ∧
    ∃ outsPost,
      (runCalls env true (pre ++ b :: post)).2 =
        (runCalls env true pre).2 ++
          (b.map env.fallbackOne, Origin.fallback) :: outsPost ∧
      ∀ o ∈ outsPost, o.2 ≠ Origin.primary := by
  have h1 := generate_embeddings_fail env b hb hfail
  have hrest := runCalls_demoted env post
  refine ⟨?_, (runCalls env false post).2, ?_, hrest.2⟩
  · rw [runCalls_append, hpre]
    show (runCalls env true (b :: post)).1 = false
    simp only [runCalls, h1]
    exact hrest.1
  · rw [runCalls_append, hpre]
    show _ ++ (runCalls env true (b :: post)).2 = _
    simp only [runCalls, h1]

/-- Environment whose primary backend always raises, used as concrete
witness material. -/
def alwaysFailEnv : EmbEnv :=
  { primaryOne := fun _ => none, fallbackOne := fun _ => [1] }

/-- C4 witness: the primary raises on the first call; that call and the
following one are both served by the fallback. -/
theorem fallback_latch_witness :
    (runCalls alwaysFailEnv true ([] ++ [[0]] :: [[[2]]])).1 = false ∧
    ∃ outsPost,
      (runCalls alwaysFailEnv true ([] ++ [[0]] :: [[[2]]])).2 =
        (runCalls alwaysFailEnv true []).2 ++
          ([[0]].map alwaysFailEnv.fallbackOne, Origin.fallback) :: outsPost ∧
      ∀ o ∈ outsPost, o.2 ≠ Origin.primary :=
  fallback_latch alwaysFailEnv [] [[0]] [[[2]]] (by decide) rfl rfl
/-- Every slice walked with the generator already demoted is served by
the fallback, so the loop result is the pointwise fallback embedding. -/
theorem goBatch_demoted (env : EmbEnv) (batch_size : Nat) :
    ∀ (fuel : Nat) (l : List Text), l.length ≤ fuel →
      goBatch env batch_size fuel l false = (l.map env.fallbackOne, false) := by
  intro fuel
  induction fuel with
  | zero =>
    intro l hl
    have : l = [] := List.eq_nil_of_length_eq_zero (Nat.le_zero.mp hl)
    subst this
    rfl
  | succ n ih =>
    intro l hl
    cases l with
    | nil => rfl
    | cons t ts =>
      have hlen : (ts.drop (batch_size - 1)).length ≤ n := by
        simp only [List.length_drop]
        simp only [List.length_cons] at hl
        omega
      have hgen := generate_embeddings_demoted env (t :: ts.take (batch_size - 1)) (by simp)
      simp only [goBatch, hgen, ih _ hlen]
      simp [← List.map_append, List.take_append_drop]

/-- When the primary succeeds on every text, the batched loop embeds each
slice on the primary and stays on the primary. -/
theorem goBatch_primary (env : EmbEnv) (batch_size : Nat) :
    ∀ (fuel : Nat) (l : List Text), l.length ≤ fuel →
      (∀ t ∈ l, (env.primaryOne t).isSome) →
      goBatch env batch_size fuel l true =
        (l.map fun t => (env.primaryOne t).getD [], true) := by
  intro fuel
  induction fuel with
  | zero =>
    intro l hl _
    have : l = [] := List.eq_nil_of_length_eq_zero (Nat.le_zero.mp hl)
    subst this
    rfl
  | succ n ih =>
    intro l hl hall
    cases l with
    | nil => rfl
    | cons t ts =>
      have hlen : (ts.drop (batch_size - 1)).length ≤ n := by
        simp only [List.length_drop]
        simp only [List.length_cons] at hl
        omega
      have hbatch : ∀ x ∈ t :: ts.take (batch_size - 1), (env.primaryOne x).isSome := by
        intro x hx
        rcases List.mem_cons.mp hx with h | h
        · exact hall x (by simp [h])
        · exact hall x (List.mem_cons_of_mem t (List.take_subset _ _ h))
      have hdropall : ∀ x ∈ ts.drop (batch_size - 1), (env.primaryOne x).isSome :=
        fun x hx => hall x (List.mem_cons_of_mem t (List.drop_subset _ _ hx))
      have hgen := generate_embeddings_primary env (t :: ts.take (batch_size - 1))
        (by simp) hbatch
      simp only [goBatch, hgen, ih _ hlen hdropall]
      simp [← List.map_append, List.take_append_drop]

/-- C6 (amended): batch_generate_embeddings partitions the input into
contiguous slices, embeds each via generate_embeddings, and concatenates.
Whenever no backend demotion happens during the run — the primary
succeeds on every text, or the generator is already demoted — the result
equals embedding the whole list in one call, for every positive
batch_size. (A primary failure mid-run breaks this equality: slices
before the failure stay primary-embedded while the single whole-list call
is served entirely by the fallback.) -/
theorem batch_embed_amended (env : EmbEnv) (texts : List Text) (batch_size : Nat)
    (hbs : batch_size ≠ 0) :
    ((∀ t ∈ texts, (env.primaryOne t).isSome) →
      batch_generate_embeddings env true texts batch_size =
        .ok ((generate_embeddings env true texts).1, true)) ∧
    batch_generate_embeddings env false texts batch_size =
      .ok ((generate_embeddings env false texts).1, false) := by
  constructor
  · intro hall
    unfold batch_generate_embeddings
    rw [if_neg hbs, goBatch_primary env batch_size texts.length texts le_rfl hall]
    cases texts with
    | nil => rfl
    | cons t ts =>
      rw [generate_embeddings_primary env (t :: ts) (by simp) hall]
  · unfold batch_generate_embeddings
    rw [if_neg hbs, goBatch_demoted env batch_size texts.length texts le_rfl]
    cases texts with
    | nil => rfl
    | cons t ts =>
      rw [generate_embeddings_demoted env (t :: ts) (by simp)]

/-- Environment whose primary fails exactly on the text [1] and embeds
every other text as [10], with fallback [20]; used to exhibit the batch
counterexample and the amended witness. -/
def mixedEnv : EmbEnv :=
  { primaryOne := fun t => if t = [1] then none else some [10],
    fallbackOne := fun _ => [20] }

/-- C6 witness: with all-primary success (texts [0] and [2]) and with an
already demoted generator, batching with batch_size 1 equals the single
whole-list call. -/
theorem batch_embed_amended_witness :
    batch_generate_embeddings mixedEnv true [[0], [2]] 1 =
      .ok ((generate_embeddings mixedEnv true [[0], [2]]).1, true) ∧
    batch_generate_embeddings mixedEnv false [[0], [1]] 1 =
      .ok ((generate_embeddings mixedEnv false [[0], [1]]).1, false) :=
  ⟨(batch_embed_amended mixedEnv [[0], [2]] 1 (by decide)).1 (by decide),
   (batch_embed_amended mixedEnv [[0], [1]] 1 (by decide)).2⟩

/-- C6 counterexample: the primary embeds [0] but raises on [1]. Batching
with batch_size 1 yields a primary vector followed by a fallback vector,
while embedding the whole list at once yields two fallback vectors — the
batch size does change the resulting values. -/
theorem batch_embed_claim_counterexample :
    batch_generate_embeddings mixedEnv true [[0], [1]] 1 =
      .ok ([[10], [20]], false) ∧
    (generate_embeddings mixedEnv true [[0], [1]]).1 = [[20], [20]] ∧
    ([[10], [20]] : List Vec) ≠ [[20], [20]] :=
  ⟨rfl, rfl, by decide⟩

/-- Dot product np.dot of two float vectors, over the reals. -/
def dotList (a b : List ℝ) : ℝ := (List.zipWith (· * ·) a b).sum

/-- Euclidean norm np.linalg.norm: square root of the sum of squares. -/
noncomputable def normList (a : List ℝ) : ℝ := Real.sqrt (dotList a a)

open Classical in
/-- EmbeddingGenerator.compute_similarity: cosine similarity
dot(a,b) / (norm(a) * norm(b)), defined as 0.0 when either norm is 0. -/
noncomputable def compute_similarity (embedding1 embedding2 : List ℝ) : ℝ :=
  if normList embedding1 = 0 ∨ normList embedding2 = 0 then 0
  else dotList embedding1 embedding2 / (normList embedding1 * normList embedding2)

/-- Commutativity of the dot product. -/
theorem dotList_comm (a b : List ℝ) : dotList a b = dotList b a := by
  unfold dotList
  rw [List.zipWith_comm_of_comm _ mul_comm]

/-- A sum of squares is nonnegative. -/
theorem dotList_self_nonneg (a : List ℝ) : 0 ≤ dotList a a := by
  unfold dotList
  rw [List.zipWith_same]
  refine List.sum_nonneg ?_
  intro x hx
  obtain ⟨y, _, rfl⟩ := List.mem_map.mp hx
  exact mul_self_nonneg y

/-- A sum of squares with a nonzero entry is positive. -/
theorem dotList_self_pos (a : List ℝ) (h : ∃ x ∈ a, x ≠ 0) : 0 < dotList a a := by
  induction a with
  | nil => simp at h
  | cons y l ih =>
    have hyl : dotList (y :: l) (y :: l) = y * y + dotList l l := by
      simp [dotList]
    rw [hyl]
    rcases h with ⟨x, hx, hxne⟩
    rcases List.mem_cons.mp hx with rfl | hxl
    · exact add_pos_of_pos_of_nonneg (mul_self_pos.mpr hxne) (dotList_self_nonneg l)
    · exact add_pos_of_nonneg_of_pos (mul_self_nonneg y) (ih ⟨x, hxl, hxne⟩)

/-- C5: compute_similarity is symmetric; it equals 1 on any pair (a, a)
with a a nonzero vector; and it equals 0 whenever either argument has
zero norm (the division-by-zero policy branch). -/
theorem compute_similarity_props (a b : List ℝ) :
    compute_similarity a b = compute_similarity b a ∧
    ((∃ x ∈ a, x ≠ 0) → compute_similarity a a = 1) ∧
    ((normList a = 0 ∨ normList b = 0) → compute_similarity a b = 0) := by
  refine ⟨?_, ?_, ?_⟩
  · unfold compute_similarity
    by_cases h : normList a = 0 ∨ normList b = 0
    · rw [if_pos h, if_pos h.symm]
    · rw [if_neg h, if_neg fun hc => h hc.symm, dotList_comm a b,
        mul_comm (normList a) (normList b)]
  · intro h
    have hpos : 0 < dotList a a := dotList_self_pos a h
    have hnorm : normList a ≠ 0 := by
      unfold normList
      exact ne_of_gt (Real.sqrt_pos.mpr hpos)
    unfold compute_similarity
    rw [if_neg (by simp [hnorm])]
    unfold normList
    rw [Real.mul_self_sqrt (dotList_self_nonneg a)]
    exact div_self (ne_of_gt hpos)
  · intro h
    unfold compute_similarity
    rw [if_pos h]

/-- C5 witness: the vector [2] has cosine similarity 1 with itself, and
the zero vector [0] has similarity 0 with [3]. -/
theorem compute_similarity_props_witness :
    compute_similarity [(2 : ℝ)] [2] = 1 ∧ compute_similarity [(0 : ℝ)] [3] = 0 :=
  ⟨(compute_similarity_props [2] [2]).2.1 ⟨2, by simp, by norm_num⟩,
   (compute_similarity_props [0] [3]).2.2 (Or.inl (by simp [normList, dotList]))⟩
/-! ## Vector store (src/vector_store.py) -/

/-- Metadata written per record by VectorStore.add_document; indexed_at
(an ISO timestamp in Python) is modelled as a numeric clock value passed
into add_document, and page_number is present only when the chunk
metadata carries one. -/
structure RecordMeta where
  file_hash : String
  file_path : String
  file_name : String
  chunk_index : Nat
  total_chunks : Nat
  chunk_token_count : Nat
  file_type : String
  indexed_at : Nat
  page_number : Option Nat
  deriving DecidableEq

/-- A record held by the ChromaDB collection: id, embedding, document
text and metadata. -/
structure VectorRecord where
  id : String
  embedding : Vec
  document : Text
  metadata : RecordMeta
  deriving DecidableEq

/-- State of a VectorStore instance: the collection contents plus the
use_ollama flag of its embedded EmbeddingGenerator. -/
structure StoreState where
  records : List VectorRecord
  genUseOllama : Bool
  deriving DecidableEq

/-- A formatted search result as returned by VectorStore.search. -/
structure SearchResult where
  id : String
  text : Text
  metadata : RecordMeta
  distance : ℚ
  similarity : ℚ
  deriving DecidableEq

/-- The collection statistics dict of get_collection_stats. -/
structure CollectionStats where
  total_chunks : Nat
  unique_documents : Nat
  collection_name : String
  deriving DecidableEq

/-- VectorStore.document_exists with an engine fault parameter: the
collection.get probe for any record with the given file_hash; an engine
exception is caught and turned into False. -/
def documentExistsF (fault : Option String) (st : StoreState) (file_hash : String) : Bool :=
  match fault with
  | some _ => false
  | none => st.records.any fun r => r.metadata.file_hash = file_hash

/-- VectorStore.document_exists against a reliable engine. -/
def document_exists (st : StoreState) (file_hash : String) : Bool :=
  documentExistsF none st file_hash

/-- The per-chunk metadata dict built inside add_document. -/
def recordMetadata (now : Nat) (doc : ProcessedDocument) (c : DocumentChunk) : RecordMeta :=
  { file_hash := doc.file_hash
    file_path := doc.file_path
    file_name := c.metadata.base.file_name.getD ""
    chunk_index := c.metadata.chunk_index
    total_chunks := c.metadata.total_chunks
    chunk_token_count := c.metadata.chunk_token_count
    file_type := c.metadata.base.file_type.getD "unknown"
    indexed_at := now
    page_number := c.metadata.base.page_number }

/-- VectorStore.add_document with an engine fault parameter on the
collection.add call. Returns the new state, the (success, message) pair,
and the list of texts handed to the embedding generator (empty when the
generator was never invoked). The duplicate check runs first; then the
chunk texts are extracted and, when nonempty, embedded in batches
(batch size 32, the Python default); the staged records are then
inserted in one collection.add call, whose failure is caught and
reported as an Error message with the store left unchanged. -/
def addDocumentF (env : EmbEnv) (now : Nat) (fault : Option String)
    (st : StoreState) (doc : ProcessedDocument) :
    StoreState × (Bool × String) × List Text :=
  if document_exists st doc.file_hash then
    (st, (false, "Document already exists in vector store"), [])
  else
    let texts := doc.chunks.map fun c => c.text
    if texts.isEmpty then (st, (false, "No text chunks to process"), [])
    else
      match batch_generate_embeddings env st.genUseOllama texts 32 with
      | .error e => (st, (false, "Error: " ++ e), texts)
      | .ok (embeddings, genSt) =>
        match fault with
        | some e => ({ records := st.records, genUseOllama := genSt },
            (false, "Error: " ++ e), texts)
        | none =>
          let newRecords := (doc.chunks.zip embeddings).map fun ce =>
            { id := ce.1.chunk_id
              embedding := ce.2
              document := ce.1.text
              metadata := recordMetadata now doc ce.1 }
          ({ records := st.records ++ newRecords, genUseOllama := genSt },
            (true, "Added " ++ toString texts.length ++ " chunks"), texts)

/-- VectorStore.add_document against a reliable engine. -/
def add_document (env : EmbEnv) (now : Nat) (st : StoreState)
    (doc : ProcessedDocument) : StoreState × (Bool × String) × List Text :=
  addDocumentF env now none st doc

/-- VectorStore.delete_document with an engine fault parameter: fetch all
record ids whose metadata file_hash matches, fail with the not-found
message when there are none, otherwise delete that id batch; an engine
exception is caught and reported as an Error message. -/
def deleteDocumentF (fault : Option String) (st : StoreState) (file_hash : String) :
    StoreState × (Bool × String) :=
  match fault with
  | some e => (st, (false, "Error: " ++ e))
  | none =>
    let ids := (st.records.filter fun r => r.metadata.file_hash = file_hash).map
      fun r => r.id
    if ids.isEmpty then (st, (false, "Document not found in vector store"))
    else ({ records := st.records.filter fun r => r.id ∉ ids,
            genUseOllama := st.genUseOllama },
      (true, "Deleted " ++ toString ids.length ++ " chunks"))

/-- VectorStore.delete_document against a reliable engine. -/
def delete_document (st : StoreState) (file_hash : String) :
    StoreState × (Bool × String) :=
  deleteDocumentF none st file_hash

/-- VectorStore.get_collection_stats with an engine fault parameter:
total record count plus number of distinct file_hash values; an engine
exception yields zeroed counts together with the error string. -/
def getCollectionStatsF (fault : Option String) (collection_name : String)
    (st : StoreState) : CollectionStats × Option String :=
  match fault with
  | some e =>
    ({ total_chunks := 0, unique_documents := 0, collection_name := collection_name },
      some e)
  | none =>
    ({ total_chunks := st.records.length
       unique_documents := (st.records.map fun r => r.metadata.file_hash).dedup.length
       collection_name := collection_name }, none)

/-- VectorStore.get_collection_stats against a reliable engine. -/
def get_collection_stats (collection_name : String) (st : StoreState) :
    CollectionStats × Option String :=
  getCollectionStatsF none collection_name st

/-- Ordering of engine query candidates by their distance component. -/
def distRel (x y : VectorRecord × ℚ) : Prop := x.2 ≤ y.2

instance : DecidableRel distRel :=
  fun x y => inferInstanceAs (Decidable (x.2 ≤ y.2))

instance : IsTotal (VectorRecord × ℚ) distRel :=
  ⟨fun a b => le_total a.2 b.2⟩

instance : IsTrans (VectorRecord × ℚ) distRel :=
  ⟨fun _ _ _ h1 h2 => le_trans h1 h2⟩

/-- The ChromaDB collection.query engine call, modelled from the store
contract it is used under: optionally filter by metadata, score every
record against the query vector with the engine distance metric, and
return the n_results nearest in ascending distance order. -/
def engineQuery (dist : Vec → Vec → ℚ) (records : List VectorRecord)
    (query_embedding : Vec) (n_results : Nat)
    (filter_dict : Option (VectorRecord → Bool)) : List (VectorRecord × ℚ) :=
  let pool := match filter_dict with
    | none => records
    | some f => records.filter f
  ((pool.map fun r => (r, dist query_embedding r.embedding)).insertionSort
    distRel).take n_results

/-- VectorStore.search with an engine fault parameter: embed the query
via the generator (whose use_ollama state may latch), query the engine,
and format each hit as {id, text, metadata, distance, similarity} with
similarity = 1 - distance; an engine exception is caught and turned into
the empty result list. -/
def searchF (env : EmbEnv) (dist : Vec → Vec → ℚ) (fault : Option String)
    (st : StoreState) (query : Text) (n_results : Nat)
    (filter_dict : Option (VectorRecord → Bool)) :
    List SearchResult × StoreState :=
  let g := generate_embeddings env st.genUseOllama [query]
  let query_embedding := g.1.headD []
  let st' : StoreState := { records := st.records, genUseOllama := g.2.1 }
  match fault with
  | some _ => ([], st')
  | none =>
    ((engineQuery dist st.records query_embedding n_results filter_dict).map fun rd =>
      { id := rd.1.id, text := rd.1.document, metadata := rd.1.metadata,
        distance := rd.2, similarity := 1 - rd.2 }, st')

/-- VectorStore.search against a reliable engine. -/
def search (env : EmbEnv) (dist : Vec → Vec → ℚ) (st : StoreState) (query : Text)
    (n_results : Nat) (filter_dict : Option (VectorRecord → Bool)) :
    List SearchResult × StoreState :=
  searchF env dist none st query n_results filter_dict
/-- Concrete record with hash H, used by witnesses. -/
def recA : VectorRecord where
  id := "a"
  embedding := [5]
  document := [0]
  metadata :=
    { file_hash := "H", file_path := "/docs/a.txt", file_name := "a.txt",
      chunk_index := 0, total_chunks := 1, chunk_token_count := 1,
      file_type := "text", indexed_at := 0, page_number := none }

/-- Concrete record with hash G, used by witnesses. -/
def recB : VectorRecord where
  id := "b"
  embedding := [3]
  document := [1]
  metadata :=
    { file_hash := "G", file_path := "/docs/b.txt", file_name := "b.txt",
      chunk_index := 0, total_chunks := 1, chunk_token_count := 1,
      file_type := "text", indexed_at := 0, page_number := none }

/-- Concrete two-record store, used by witnesses. -/
def exampleStore : StoreState := { records := [recA, recB], genUseOllama := true }

/-- Concrete empty store, used by witnesses. -/
def emptyStore : StoreState := { records := [], genUseOllama := true }

/-- Concrete one-chunk processed document with hash H, used by witnesses. -/
def exampleChunk : DocumentChunk where
  text := [0]
  metadata :=
    { base := exampleMeta, chunk_index := 0, chunk_start_token := 0,
      chunk_end_token := 1, chunk_token_count := 1, total_chunks := 1 }
  chunk_id := "h_0"

def exampleDoc : ProcessedDocument where
  file_path := "/docs/a.txt"
  file_hash := "H"
  chunks := [exampleChunk]
  metadata := exampleMeta
  total_chunks := 1
  total_tokens := 1

/-- Concrete processed document with no chunks, used by witnesses. -/
def emptyDoc : ProcessedDocument :=
  { file_path := "/docs/e.txt", file_hash := "E", chunks := [],
    metadata := exampleMeta, total_chunks := 0, total_tokens := 0 }

/-- C1: adding a document whose content hash is already present fails
fast with the duplicate message, performs no embedding work (the text
log is empty), leaves the store state unchanged, and hence leaves
stats().total_chunks unchanged. -/
theorem duplicate_add_rejected (env : EmbEnv) (now : Nat) (st : StoreState)
    (doc : ProcessedDocument) (hdup : document_exists st doc.file_hash = true) :
    add_document env now st doc =
      (st, (false, "Document already exists in vector store"), []) ∧
    ∀ collection_name,
      (get_collection_stats collection_name (add_document env now st doc).1).1.total_chunks =
      (get_collection_stats collection_name st).1.total_chunks := by
  have h1 : add_document env now st doc =
      (st, (false, "Document already exists in vector store"), []) := by
    unfold add_document addDocumentF
    rw [if_pos hdup]
  exact ⟨h1, fun collection_name => by rw [h1]⟩

/-- C1 witness: a second add of the document with hash H against the
store already holding an H record is rejected without touching anything. -/
theorem duplicate_add_rejected_witness :
    add_document alwaysFailEnv 0 exampleStore exampleDoc =
      (exampleStore, (false, "Document already exists in vector store"), []) ∧
    (get_collection_stats "rag_documents"
        (add_document alwaysFailEnv 0 exampleStore exampleDoc).1).1.total_chunks =
      (get_collection_stats "rag_documents" exampleStore).1.total_chunks :=
  ⟨(duplicate_add_rejected alwaysFailEnv 0 exampleStore exampleDoc rfl).1,
   (duplicate_add_rejected alwaysFailEnv 0 exampleStore exampleDoc rfl).2 "rag_documents"⟩

/-- C10: adding a document with an empty chunk list returns a failure
outcome, leaves the store unchanged, and never invokes the embedding
generator (the text log is empty). -/
theorem empty_chunks_add_rejected (env : EmbEnv) (now : Nat) (st : StoreState)
    (doc : ProcessedDocument) (hempty : doc.chunks = []) :
    (add_document env now st doc).1 = st ∧
    (add_document env now st doc).2.1.1 = false ∧
    (add_document env now st doc).2.2 = [] := by
  unfold add_document addDocumentF
  by_cases hdup : document_exists st doc.file_hash = true
  · rw [if_pos hdup]
    exact ⟨rfl, rfl, rfl⟩
  · rw [if_neg hdup, if_pos (by simp [hempty])]
    exact ⟨rfl, rfl, rfl⟩

/-- C10 witness: adding the chunkless document to the two-record store
changes nothing and embeds nothing. -/
theorem empty_chunks_add_rejected_witness :
    (add_document alwaysFailEnv 0 exampleStore emptyDoc).1 = exampleStore ∧
    (add_document alwaysFailEnv 0 exampleStore emptyDoc).2.1.1 = false ∧
    (add_document alwaysFailEnv 0 exampleStore emptyDoc).2.2 = [] :=
  empty_chunks_add_rejected alwaysFailEnv 0 exampleStore emptyDoc rfl
/-- Under the engine invariant that record ids are unique, a record id
belongs to the fetched id batch for a hash exactly when the record
carries that hash. -/
theorem mem_delete_ids_iff (st : StoreState) (file_hash : String)
    (hnodup : (st.records.map fun r => r.id).Nodup)
    (r : VectorRecord) (hr : r ∈ st.records) :
    (r.id ∈ (st.records.filter fun x => x.metadata.file_hash = file_hash).map
      fun x => x.id) ↔ r.metadata.file_hash = file_hash := by
  constructor
  · intro hin
    obtain ⟨r', hr'mem, hid⟩ := List.mem_map.mp hin
    have hr'rec : r' ∈ st.records := List.mem_of_mem_filter hr'mem
    have hr'h : r'.metadata.file_hash = file_hash := by
      have := List.of_mem_filter hr'mem
      simpa using this
    have : r' = r := List.inj_on_of_nodup_map hnodup hr'rec hr hid
    rw [← this]
    exact hr'h
  · intro hh
    exact List.mem_map.mpr ⟨r, List.mem_filter.mpr ⟨hr, by simp [hh]⟩, rfl⟩

/-- C8: under unique record ids, delete_document on a hash with at least
one matching record removes exactly the records carrying that hash (all
of them, in one batch), reports their count, and leaves the hash absent;
on a hash with no matching record it fails with the not-found outcome and
changes nothing. -/
theorem delete_document_spec (st : StoreState) (file_hash : String)
    (hnodup : (st.records.map fun r => r.id).Nodup) :
    ((∃ r ∈ st.records, r.metadata.file_hash = file_hash) →
      delete_document st file_hash =
        ({ records := st.records.filter fun r => r.metadata.file_hash ≠ file_hash,
           genUseOllama := st.genUseOllama },
         (true, "Deleted " ++
            toString (st.records.filter fun r =>
              r.metadata.file_hash = file_hash).length ++ " chunks")) ∧
      document_exists (delete_document st file_hash).1 file_hash = false) ∧
    ((¬ ∃ r ∈ st.records, r.metadata.file_hash = file_hash) →
      delete_document st file_hash =
        (st, (false, "Document not found in vector store"))) := by
  constructor
  · intro hex
    obtain ⟨r0, hr0, hh0⟩ := hex
    have hmem : r0 ∈ st.records.filter fun x => x.metadata.file_hash = file_hash :=
      List.mem_filter.mpr ⟨hr0, by simp [hh0]⟩
    have hidsne : ((st.records.filter fun x => x.metadata.file_hash = file_hash).map
        fun x => x.id) ≠ [] := by
      intro hc
      rw [List.map_eq_nil_iff] at hc
      rw [hc] at hmem
      exact absurd hmem (List.not_mem_nil r0)
    have hfilter : (st.records.filter fun r =>
        r.id ∉ (st.records.filter fun x => x.metadata.file_hash = file_hash).map
          (fun x => x.id)) =
        st.records.filter fun r => r.metadata.file_hash ≠ file_hash := by
      apply List.filter_congr
      intro a ha
      have hiff := mem_delete_ids_iff st file_hash hnodup a ha
      simp only [decide_eq_decide]
      exact not_congr hiff
    have heq : delete_document st file_hash =
        ({ records := st.records.filter fun r => r.metadata.file_hash ≠ file_hash,
           genUseOllama := st.genUseOllama },
         (true, "Deleted " ++
            toString (st.records.filter fun r =>
              r.metadata.file_hash = file_hash).length ++ " chunks")) := by
      unfold delete_document deleteDocumentF
      rw [if_neg (by simpa [List.isEmpty_iff] using hidsne)]
      rw [hfilter, List.length_map]
    refine ⟨heq, ?_⟩
    rw [heq]
    simp only [document_exists, documentExistsF, List.any_eq_false]
    intro x hx
    have := List.of_mem_filter hx
    simp only [decide_eq_true_eq] at this ⊢
    exact this
  · intro hnex
    have hfil : (st.records.filter fun x => x.metadata.file_hash = file_hash) = [] := by
      rw [List.filter_eq_nil_iff]
      intro a ha
      simp only [decide_eq_true_eq]
      exact fun hh => hnex ⟨a, ha, hh⟩
    unfold delete_document deleteDocumentF
    rw [hfil]
    rfl

/-- C8 witness: deleting hash H from the two-record store removes the H
record, after which H is absent; deleting an unknown hash Z fails with
the not-found outcome. -/
theorem delete_document_spec_witness :
    document_exists (delete_document exampleStore "H").1 "H" = false ∧
    delete_document exampleStore "Z" =
      (exampleStore, (false, "Document not found in vector store")) :=
  ⟨((delete_document_spec exampleStore "H" (by decide)).1
      ⟨recA, by decide, by decide⟩).2,
   (delete_document_spec exampleStore "Z" (by decide)).2 (by decide)⟩
/-- C9: every result returned by search carries similarity = 1 -
distance, and the result sequence is ordered by ascending distance — in
particular the first result is at distance no greater than any other. -/
theorem search_ordered (env : EmbEnv) (dist : Vec → Vec → ℚ) (st : StoreState)
    (query : Text) (n_results : Nat)
    (filter_dict : Option (VectorRecord → Bool)) :
    (∀ r ∈ (search env dist st query n_results filter_dict).1,
      r.similarity = 1 - r.distance) ∧
    ∀ (i j : Fin (search env dist st query n_results filter_dict).1.length),
      i ≤ j →
      ((search env dist st query n_results filter_dict).1.get i).distance ≤
        ((search env dist st query n_results filter_dict).1.get j).distance := by
  have hsortL : List.Sorted distRel
      (engineQuery dist st.records
        ((generate_embeddings env st.genUseOllama [query]).1.headD [])
        n_results filter_dict) := by
    unfold engineQuery
    exact List.Pairwise.sublist (List.take_sublist _ _)
      (List.sorted_insertionSort distRel _)
  have hsortRes : ((search env dist st query n_results filter_dict).1).Pairwise
      (fun a b => a.distance ≤ b.distance) :=
    List.pairwise_map.mpr (hsortL.imp fun hab => hab)
  constructor
  · intro r hr
    obtain ⟨x, _, rfl⟩ := List.mem_map.mp hr
    rfl
  · intro i j hij
    rcases lt_or_eq_of_le hij with hlt | heq2
    · exact List.pairwise_iff_get.mp hsortRes i j hlt
    · rw [heq2]

/-- Engine distance metric used by witnesses: the head coordinate of the
stored embedding. -/
def headDist : Vec → Vec → ℚ := fun _ v => v.headD 0

/-- C9 witness: searching the two-record store returns the distance-3
record before the distance-5 record, with similarity 1 - distance. -/
theorem search_ordered_witness :
    ((search alwaysFailEnv headDist exampleStore [0] 2 none).1.get
      ⟨0, by decide⟩).distance ≤
      ((search alwaysFailEnv headDist exampleStore [0] 2 none).1.get
        ⟨1, by decide⟩).distance ∧
    ((search alwaysFailEnv headDist exampleStore [0] 2 none).1.get
      ⟨0, by decide⟩).similarity =
      1 - ((search alwaysFailEnv headDist exampleStore [0] 2 none).1.get
        ⟨0, by decide⟩).distance :=
  ⟨(search_ordered alwaysFailEnv headDist exampleStore [0] 2 none).2
      ⟨0, by decide⟩ ⟨1, by decide⟩ (by decide),
   (search_ordered alwaysFailEnv headDist exampleStore [0] 2 none).1 _
      (List.get_mem _ _ _)⟩

/-- Distance metric that ignores its arguments, used as counterexample
material. -/
def dist0 : Vec → Vec → ℚ := fun _ _ => 0

/-- C7 counterexample: an engine failure during search is caught and
returned as the plain empty result list — byte-for-byte the same value a
successful search over an empty store returns, so the failure is
silently swallowed rather than surfaced as a typed StoreError; likewise
an engine failure during document_exists is returned as plain False even
though the record is present. -/
theorem store_error_claim_counterexample :
    (searchF alwaysFailEnv dist0 (some "connection refused") exampleStore
      [0] 5 none).1 = [] ∧
    (searchF alwaysFailEnv dist0 none emptyStore [0] 5 none).1 = [] ∧
    documentExistsF (some "connection refused") exampleStore "H" = false ∧
    documentExistsF none exampleStore "H" = true :=
  ⟨rfl, rfl, rfl, by decide⟩

/-- C7 (amended): engine failures are always caught, but not converted
to a typed StoreError. add_document and delete_document report them as a
(False, "Error: cause") tuple carrying only the cause (no operation
name) and leave the records unchanged; search returns the empty result
list and document_exists returns False, both indistinguishable from
successful empty outcomes; get_collection_stats returns zeroed counts
alongside the error string. -/
theorem store_error_handling_amended (e : String) (env : EmbEnv)
    (dist : Vec → Vec → ℚ) (now : Nat) (st : StoreState)
    (doc : ProcessedDocument) (query : Text) (n_results : Nat)
    (filter_dict : Option (VectorRecord → Bool))
    (file_hash collection_name : String) :
    (document_exists st doc.file_hash = false → doc.chunks ≠ [] →
      (addDocumentF env now (some e) st doc).2.1 = (false, "Error: " ++ e) ∧
      (addDocumentF env now (some e) st doc).1.records = st.records) ∧
    deleteDocumentF (some e) st file_hash = (st, (false, "Error: " ++ e)) ∧
    (searchF env dist (some e) st query n_results filter_dict).1 = [] ∧
    documentExistsF (some e) st file_hash = false ∧
    getCollectionStatsF (some e) collection_name st =
      ({ total_chunks := 0, unique_documents := 0,
         collection_name := collection_name }, some e) := by
  refine ⟨?_, rfl, rfl, rfl, rfl⟩
  intro hdup hch
  unfold addDocumentF
  rw [if_neg (by simp [hdup]), if_neg (by simp [List.isEmpty_iff, hch])]
  unfold batch_generate_embeddings
  rw [if_neg (by norm_num)]
  exact ⟨rfl, rfl⟩

/-- C7 amended witness: with cause "boom", each faulted operation yields
its concrete caught outcome on the empty store and the one-chunk
document. -/
theorem store_error_handling_amended_witness :
    (addDocumentF alwaysFailEnv 0 (some "boom") emptyStore exampleDoc).2.1 =
      (false, "Error: " ++ "boom") ∧
    (addDocumentF alwaysFailEnv 0 (some "boom") emptyStore exampleDoc).1.records =
      emptyStore.records ∧
    deleteDocumentF (some "boom") emptyStore "H" =
      (emptyStore, (false, "Error: " ++ "boom")) ∧
    (searchF alwaysFailEnv dist0 (some "boom") emptyStore [0] 5 none).1 = [] ∧
    documentExistsF (some "boom") emptyStore "H" = false ∧
    getCollectionStatsF (some "boom") "rag_documents" emptyStore =
      ({ total_chunks := 0, unique_documents := 0,
         collection_name := "rag_documents" }, some "boom") :=
  ⟨((store_error_handling_amended "boom" alwaysFailEnv dist0 0 emptyStore
      exampleDoc [0] 5 none "H" "rag_documents").1 rfl (by decide)).1,
   ((store_error_handling_amended "boom" alwaysFailEnv dist0 0 emptyStore
      exampleDoc [0] 5 none "H" "rag_documents").1 rfl (by decide)).2,
   (store_error_handling_amended "boom" alwaysFailEnv dist0 0 emptyStore
      exampleDoc [0] 5 none "H" "rag_documents").2.1,
   (store_error_handling_amended "boom" alwaysFailEnv dist0 0 emptyStore
      exampleDoc [0] 5 none "H" "rag_documents").2.2.1,
   (store_error_handling_amended "boom" alwaysFailEnv dist0 0 emptyStore
      exampleDoc [0] 5 none "H" "rag_documents").2.2.2.1,
   (store_error_handling_amended "boom" alwaysFailEnv dist0 0 emptyStore
      exampleDoc [0] 5 none "H" "rag_documents").2.2.2.2⟩

end RagChatbot
